import Mathlib

/-!
Verification of the geospatial crew dispatcher and the batch event loop of
`AI_agent.py`, together with a spec-level model of the sensor anomaly
detector (whose implementation is not part of the source file).

Numeric model: Python floats are embedded as real numbers; Python's
`round(x, 2)` (banker's rounding to two decimals) is `round2`, Python's
`int(x)` (truncation toward zero) is `pyInt`, and `math.atan2` is `atan2`.
-/

open Real

/-- Python's `math.radians`: degrees to radians, `x * pi / 180`. -/
noncomputable def radians (x : ℝ) : ℝ := x * (Real.pi / 180)

/-- Rounding to the nearest integer with ties going to the even integer,
the tie rule of Python's built-in `round`.  Away from exact midpoints it
agrees with `round` (nearest integer, i.e. `⌊x + 1/2⌋`). -/
noncomputable def roundHalfEven (x : ℝ) : ℤ :=
  if Int.fract x = 1 / 2 then (if Even ⌊x⌋ then ⌊x⌋ else ⌊x⌋ + 1) else round x

/-- Python's `round(x, 2)`: round to two decimal places. -/
noncomputable def round2 (x : ℝ) : ℝ := (roundHalfEven (x * 100) : ℝ) / 100

/-- Python's `int(x)` on a float: truncation toward zero. -/
noncomputable def pyInt (x : ℝ) : ℤ := if 0 ≤ x then ⌊x⌋ else ⌈x⌉

/-- Python's `math.atan2 y x`: the angle of the point `(x, y)`,
in `(-pi, pi]`.  (With real arguments there are no signed zeros, so
`atan2 0 0 = 0`.) -/
noncomputable def atan2 (y x : ℝ) : ℝ :=
  if 0 < x then Real.arctan (y / x)
  else if x < 0 then
    (if 0 ≤ y then Real.arctan (y / x) + Real.pi else Real.arctan (y / x) - Real.pi)
  else if 0 < y then Real.pi / 2
  else if y < 0 then -(Real.pi / 2)
  else 0

/-- Embedding of `calculate_distance(lat1, lon1, lat2, lon2)` from
`AI_agent.py` (lines 38–46): the haversine great-circle distance in km,
rounded to 2 decimal places.

    R = 6371
    lat1, lon1, lat2, lon2 = map(radians, [lat1, lon1, lat2, lon2])
    dlat = lat2 - lat1
    dlon = lon2 - lon1
    a = sin(dlat/2)**2 + cos(lat1)*cos(lat2)*sin(dlon/2)**2
    c = 2 * atan2(sqrt(a), sqrt(1-a))
    return round(R * c, 2)
-/
noncomputable def calculate_distance (lat1 lon1 lat2 lon2 : ℝ) : ℝ :=
  let R : ℝ := 6371
  let lat1r := radians lat1
  let lon1r := radians lon1
  let lat2r := radians lat2
  let lon2r := radians lon2
  let dlat := lat2r - lat1r
  let dlon := lon2r - lon1r
  let a := Real.sin (dlat / 2) ^ 2 +
    Real.cos lat1r * Real.cos lat2r * Real.sin (dlon / 2) ^ 2
  let c := 2 * atan2 (Real.sqrt a) (Real.sqrt (1 - a))
  round2 (R * c)

/-- One row of `crew_data.csv` as used by the dispatcher: the columns
`Crew ID`, `Crew name`, `Crew ID available` (a string compared against
"Yes"), `Location of crew latitude`, `Location of crew longitude`. -/
structure CrewRecord where
  crewID : String
  crewName : String
  available : String
  lat : ℝ
  lon : ℝ

/-- The availability filter `crew_df["Crew ID available"] == "Yes"`. -/
def isAvailable (c : CrewRecord) : Bool := c.available == "Yes"

/-- Embedding of `candidates.nsmallest(1, "distance").iloc[0]` with the pandas default
`keep="first"`: scan the remaining rows, replacing the current best only
on a strictly smaller key, so the first row attaining the minimum wins. -/
noncomputable def selectMin {α : Type} : (α × ℝ) → List (α × ℝ) → (α × ℝ)
  | best, [] => best
  | best, p :: ps => selectMin (if p.2 < best.2 then p else best) ps

/-- The `candidates` frame of `get_available_crew` together with its
`distance` column: the roster filtered to available crews, each row paired
with its haversine distance `calculate_distance(lat, lon, row_lat, row_lon)`
to the outage. -/
noncomputable def candidatesWithDist (crew_df : List CrewRecord) (lat lon : ℝ) :
    List (CrewRecord × ℝ) :=
  (crew_df.filter isAvailable).map
    (fun r => (r, calculate_distance lat lon r.lat r.lon))

/-- Embedding of `get_available_crew(crew_df, lat, lon)` from
`AI_agent.py` (lines 51–61): filter the roster to available crews; if none remain
return `None`; otherwise attach to each candidate its distance to the
outage and return the row with the smallest distance (first occurrence on
ties). -/
noncomputable def get_available_crew (crew_df : List CrewRecord) (lat lon : ℝ) :
    Option (CrewRecord × ℝ) :=
  match candidatesWithDist crew_df lat lon with
  | [] => none
  | p :: ps => some (selectMin p ps)

/-- The ETA printed in the crew assignment (`AI_agent.py` line 325):
`int(crew["distance"] * 2)` minutes. -/
noncomputable def eta_minutes (d : ℝ) : ℤ := pyInt (d * 2)

/-! ### Basic facts about the numeric helpers -/

theorem atan2_zero_one : atan2 0 1 = 0 := by
  rw [atan2, if_pos one_pos]
  simp [Real.arctan_zero]

theorem arctan_nonneg_of_nonneg {x : ℝ} (h : 0 ≤ x) : 0 ≤ Real.arctan x := by
  rw [← Real.arctan_zero]
  exact Real.arctan_strictMono.monotone h

theorem atan2_nonneg {y x : ℝ} (hy : 0 ≤ y) (hx : 0 ≤ x) : 0 ≤ atan2 y x := by
  unfold atan2
  by_cases h1 : 0 < x
  · simp only [if_pos h1]
    exact arctan_nonneg_of_nonneg (div_nonneg hy h1.le)
  · have hx0 : x = 0 := le_antisymm (not_lt.mp h1) hx
    subst hx0
    simp only [if_neg h1, if_neg (lt_irrefl 0)]
    by_cases hy0 : 0 < y
    · simp only [if_pos hy0]
      positivity
    · simp only [if_neg hy0, if_neg (not_lt.mpr hy)]
      exact le_refl 0

theorem atan2_sin_cos {t : ℝ} (h1 : -(Real.pi / 2) < t) (h2 : t < Real.pi / 2) :
    atan2 (Real.sin t) (Real.cos t) = t := by
  have hc : 0 < Real.cos t := Real.cos_pos_of_mem_Ioo ⟨h1, h2⟩
  rw [atan2, if_pos hc, ← Real.tan_eq_sin_div_cos, Real.arctan_tan h1 h2]

theorem roundHalfEven_zero : roundHalfEven 0 = 0 := by
  rw [roundHalfEven]
  norm_num [Int.fract_zero]

theorem round2_zero : round2 0 = 0 := by
  rw [round2]
  norm_num [roundHalfEven_zero]

theorem roundHalfEven_nonneg {x : ℝ} (h : 0 ≤ x) : 0 ≤ roundHalfEven x := by
  rw [roundHalfEven]
  by_cases hf : Int.fract x = 1 / 2
  · rw [if_pos hf]
    have hfl : (0 : ℤ) ≤ ⌊x⌋ := Int.floor_nonneg.mpr h
    by_cases he : Even ⌊x⌋
    · rw [if_pos he]
      exact hfl
    · rw [if_neg he]
      omega
  · rw [if_neg hf, round_eq]
    have : (0 : ℝ) ≤ x + 1 / 2 := by linarith
    exact Int.floor_nonneg.mpr this

theorem round2_nonneg {x : ℝ} (h : 0 ≤ x) : 0 ≤ round2 x := by
  rw [round2]
  have : (0 : ℤ) ≤ roundHalfEven (x * 100) := roundHalfEven_nonneg (by positivity)
  positivity

/-- Away from an exact midpoint, banker's rounding is ordinary rounding. -/
theorem roundHalfEven_eq_round {x : ℝ} (h : Int.fract x ≠ 1 / 2) :
    roundHalfEven x = round x := by
  rw [roundHalfEven, if_neg h]

/-! ### C2: the distance function is the rounded haversine formula -/

/-- C2: for all coordinates in degrees, `calculate_distance` converts them
to radians and returns `2 * R * atan2 (sqrt a) (sqrt (1 - a))` with
`a = sin²(Δlat/2) + cos lat1 * cos lat2 * sin²(Δlon/2)` and `R = 6371` km,
rounded to 2 decimal places. -/
theorem calculate_distance_matches_haversine_spec (lat1 lon1 lat2 lon2 : ℝ) :
    calculate_distance lat1 lon1 lat2 lon2 =
      round2 (2 * 6371 *
        atan2
          (Real.sqrt (Real.sin ((radians lat2 - radians lat1) / 2) ^ 2 +
            Real.cos (radians lat1) * Real.cos (radians lat2) *
              Real.sin ((radians lon2 - radians lon1) / 2) ^ 2))
          (Real.sqrt (1 - (Real.sin ((radians lat2 - radians lat1) / 2) ^ 2 +
            Real.cos (radians lat1) * Real.cos (radians lat2) *
              Real.sin ((radians lon2 - radians lon1) / 2) ^ 2)))) := by
  simp only [calculate_distance]
  congr 1
  ring

/-! ### C7: symmetry of the distance function -/

/-- C7: the haversine distance is symmetric in its two endpoints:
`calculate_distance A B = calculate_distance B A`. -/
theorem calculate_distance_symm (lat1 lon1 lat2 lon2 : ℝ) :
    calculate_distance lat1 lon1 lat2 lon2 = calculate_distance lat2 lon2 lat1 lon1 := by
  simp only [calculate_distance]
  have hlat : Real.sin ((radians lat2 - radians lat1) / 2) ^ 2
      = Real.sin ((radians lat1 - radians lat2) / 2) ^ 2 := by
    rw [show (radians lat2 - radians lat1) / 2 = -((radians lat1 - radians lat2) / 2) by ring,
      Real.sin_neg]
    ring
  have hlon : Real.sin ((radians lon2 - radians lon1) / 2) ^ 2
      = Real.sin ((radians lon1 - radians lon2) / 2) ^ 2 := by
    rw [show (radians lon2 - radians lon1) / 2 = -((radians lon1 - radians lon2) / 2) by ring,
      Real.sin_neg]
    ring
  rw [hlat, hlon, mul_comm (Real.cos (radians lat1)) (Real.cos (radians lat2))]

/-! ### Further facts about the distance function -/

theorem calculate_distance_self (lat lon : ℝ) : calculate_distance lat lon lat lon = 0 := by
  simp only [calculate_distance, sub_self, zero_div, Real.sin_zero]
  norm_num [Real.sqrt_zero, Real.sqrt_one, atan2_zero_one, round2_zero]

theorem calculate_distance_nonneg (lat1 lon1 lat2 lon2 : ℝ) :
    0 ≤ calculate_distance lat1 lon1 lat2 lon2 := by
  simp only [calculate_distance]
  refine round2_nonneg ?_
  refine mul_nonneg (by norm_num) (mul_nonneg (by norm_num) ?_)
  exact atan2_nonneg (Real.sqrt_nonneg _) (Real.sqrt_nonneg _)

/-! ### The first-minimum characterisation of the selection scan -/

/-- The scan `selectMin best ps` returns the first element of `best :: ps` attaining the
minimal key: the list splits as `pre ++ result :: post` with every element
of `pre` having a strictly larger key, and the result's key is a lower
bound for the whole list. -/
theorem selectMin_first_min {α : Type} (ps : List (α × ℝ)) (best : α × ℝ) :
    ∃ pre post, best :: ps = pre ++ selectMin best ps :: post ∧
      (∀ q ∈ pre, (selectMin best ps).2 < q.2) ∧
      (∀ q ∈ best :: ps, (selectMin best ps).2 ≤ q.2) := by
  induction ps generalizing best with
  | nil =>
    simp only [selectMin]
    refine ⟨[], [], rfl, ?_, ?_⟩
    · intro q hq
      simp at hq
    · intro q hq
      rw [List.mem_singleton] at hq
      rw [hq]
  | cons p ps ih =>
    simp only [selectMin]
    by_cases hp : p.2 < best.2
    · rw [if_pos hp]
      obtain ⟨pre, post, hEq, hPre, hLe⟩ := ih p
      refine ⟨best :: pre, post, ?_, ?_, ?_⟩
      · rw [List.cons_append, ← hEq]
      · intro q hq
        rcases List.mem_cons.mp hq with rfl | hq'
        · exact lt_of_le_of_lt (hLe p (List.mem_cons_self p ps)) hp
        · exact hPre q hq'
      · intro q hq
        rcases List.mem_cons.mp hq with rfl | hq'
        · exact le_of_lt (lt_of_le_of_lt (hLe p (List.mem_cons_self p ps)) hp)
        · exact hLe q hq'
    · rw [if_neg hp]
      obtain ⟨pre, post, hEq, hPre, hLe⟩ := ih best
      cases pre with
      | nil =>
        rw [List.nil_append] at hEq
        injection hEq with h1 h2
        refine ⟨[], p :: ps, ?_, ?_, ?_⟩
        · rw [List.nil_append, ← h1]
        · intro q hq
          simp at hq
        · intro q hq
          rw [← h1]
          rcases List.mem_cons.mp hq with rfl | hq'
          · exact le_refl _
          rcases List.mem_cons.mp hq' with rfl | hq''
          · exact not_lt.mp hp
          · have := hLe q (List.mem_cons_of_mem _ hq'')
            rw [← h1] at this
            exact this
      | cons b pre' =>
        rw [List.cons_append] at hEq
        injection hEq with h1 h2
        subst h1
        refine ⟨best :: p :: pre', post, ?_, ?_, ?_⟩
        · rw [List.cons_append, List.cons_append, ← h2]
        · intro q hq
          rcases List.mem_cons.mp hq with rfl | hq'
          · exact hPre q (List.mem_cons_self _ _)
          rcases List.mem_cons.mp hq' with rfl | hq''
          · exact lt_of_lt_of_le (hPre best (List.mem_cons_self _ _)) (not_lt.mp hp)
          · exact hPre q (List.mem_cons_of_mem _ hq'')
        · intro q hq
          rcases List.mem_cons.mp hq with rfl | hq'
          · exact hLe q (List.mem_cons_self _ _)
          rcases List.mem_cons.mp hq' with rfl | hq''
          · exact le_trans (hLe best (List.mem_cons_self _ _)) (not_lt.mp hp)
          · exact hLe q (List.mem_cons_of_mem _ hq'')

/-- A `some` result of `get_available_crew` is a member of the candidate
list (an available crew together with its computed distance). -/
theorem gac_some_mem {crew_df : List CrewRecord} {lat lon : ℝ} {r : CrewRecord × ℝ}
    (h : get_available_crew crew_df lat lon = some r) :
    r ∈ candidatesWithDist crew_df lat lon := by
  cases hc : candidatesWithDist crew_df lat lon with
  | nil =>
    rw [get_available_crew, hc] at h
    cases h
  | cons p ps =>
    rw [get_available_crew, hc] at h
    have hr : selectMin p ps = r := by
      injection h
    obtain ⟨pre, post, hEq, _, _⟩ := selectMin_first_min ps p
    rw [← hr, hEq]
    exact List.mem_append_right _ (List.mem_cons_self _ _)

/-! ### Concrete crew records used by the witnesses -/

/-- An available crew stationed at the origin. -/
def crewAlpha : CrewRecord := ⟨"CRW-001", "Alpha", "Yes", 0, 0⟩

/-- A second available crew, also at the origin (a tie with `crewAlpha`). -/
def crewBravo : CrewRecord := ⟨"CRW-002", "Bravo", "Yes", 0, 0⟩

/-- An unavailable crew. -/
def crewCharlieOff : CrewRecord := ⟨"CRW-003", "Charlie", "No", 0, 0⟩

/-! ### C1: nearest available crew, first wins on ties -/

/-- C1: whenever the roster contains at least one available crew,
`get_available_crew` returns a candidate row `r` (an available crew with
its computed haversine distance) such that the candidate list splits as
`pre ++ r :: post`, `r`'s distance is a lower bound for all candidates,
and every candidate before `r` is strictly farther — so `r` is the first
candidate in input order attaining the minimal distance, and identical
inputs always give the same crew (the selection is a pure function). -/
theorem get_available_crew_selects_first_nearest (crew_df : List CrewRecord) (lat lon : ℝ)
    (h : crew_df.filter isAvailable ≠ []) :
    ∃ r pre post,
      get_available_crew crew_df lat lon = some r ∧
      candidatesWithDist crew_df lat lon = pre ++ r :: post ∧
      r.2 = calculate_distance lat lon r.1.lat r.1.lon ∧
      (∀ q ∈ candidatesWithDist crew_df lat lon, r.2 ≤ q.2) ∧
      (∀ q ∈ pre, r.2 < q.2) := by
  cases hc : candidatesWithDist crew_df lat lon with
  | nil =>
    exfalso
    apply h
    rw [candidatesWithDist, List.map_eq_nil_iff] at hc
    exact hc
  | cons p ps =>
    obtain ⟨pre, post, hEq, hPre, hLe⟩ := selectMin_first_min ps p
    have hsome : get_available_crew crew_df lat lon = some (selectMin p ps) := by
      rw [get_available_crew, hc]
    have hmem : selectMin p ps ∈ p :: ps := by
      rw [hEq]
      exact List.mem_append_right _ (List.mem_cons_self _ _)
    rw [← hc, candidatesWithDist] at hmem
    obtain ⟨c, hcmem, hceq⟩ := List.mem_map.mp hmem
    have hceq' : (c, calculate_distance lat lon c.lat c.lon) = selectMin p ps := hceq
    have hd : (selectMin p ps).2 =
        calculate_distance lat lon (selectMin p ps).1.lat (selectMin p ps).1.lon := by
      rw [← hceq']
    exact ⟨selectMin p ps, pre, post, hsome, hEq, hd, hLe, hPre⟩

theorem get_available_crew_selects_first_nearest_witness :
    List.filter isAvailable [crewAlpha, crewBravo] ≠ [] ∧
    (∃ r pre post,
      get_available_crew [crewAlpha, crewBravo] 0 0 = some r ∧
      candidatesWithDist [crewAlpha, crewBravo] 0 0 = pre ++ r :: post ∧
      r.2 = calculate_distance 0 0 r.1.lat r.1.lon ∧
      (∀ q ∈ candidatesWithDist [crewAlpha, crewBravo] 0 0, r.2 ≤ q.2) ∧
      (∀ q ∈ pre, r.2 < q.2)) :=
  ⟨by simp [isAvailable, crewAlpha, crewBravo],
   get_available_crew_selects_first_nearest [crewAlpha, crewBravo] 0 0
     (by simp [isAvailable, crewAlpha, crewBravo])⟩

/-! ### C3: only available crews are ever selected -/

/-- C3: a crew returned by `get_available_crew` always passes the
availability filter and comes from the input roster; an unavailable crew
is never the selected one, whatever its distance. -/
theorem get_available_crew_only_available (crew_df : List CrewRecord) (lat lon : ℝ)
    (r : CrewRecord × ℝ) (h : get_available_crew crew_df lat lon = some r) :
    isAvailable r.1 = true ∧ r.1 ∈ crew_df := by
  have hmem := gac_some_mem h
  rw [candidatesWithDist] at hmem
  obtain ⟨c, hcmem, hceq⟩ := List.mem_map.mp hmem
  have hceq' : (c, calculate_distance lat lon c.lat c.lon) = r := hceq
  have h1 : r.1 = c := by
    rw [← hceq']
  rw [h1]
  have hcf := List.mem_filter.mp hcmem
  exact ⟨hcf.2, hcf.1⟩

/-- Concrete evaluation: a singleton available roster at the outage
coordinate yields that crew at distance 0. -/
theorem gac_crewAlpha_eval : get_available_crew [crewAlpha] 0 0 = some (crewAlpha, 0) := by
  have hc : candidatesWithDist [crewAlpha] 0 0 = [(crewAlpha, 0)] := by
    rw [candidatesWithDist]
    simp [isAvailable, crewAlpha, calculate_distance_self]
  rw [get_available_crew, hc]
  simp only [selectMin]

theorem get_available_crew_only_available_witness :
    isAvailable (crewAlpha, (0 : ℝ)).1 = true ∧ (crewAlpha, (0 : ℝ)).1 ∈ [crewAlpha] :=
  get_available_crew_only_available [crewAlpha] 0 0 (crewAlpha, 0) gac_crewAlpha_eval

/-! ### C4: empty available pool yields the sentinel -/

/-- C4: when no crew passes the availability filter, `get_available_crew`
returns `none` — the "no crew available" sentinel, which carries neither a
crew reference nor a distance; it is an ordinary return value, not an
error. -/
theorem get_available_crew_empty_sentinel (crew_df : List CrewRecord) (lat lon : ℝ)
    (h : crew_df.filter isAvailable = []) :
    get_available_crew crew_df lat lon = none := by
  have hc : candidatesWithDist crew_df lat lon = [] := by
    rw [candidatesWithDist, h]
    rfl
  rw [get_available_crew, hc]

theorem get_available_crew_empty_sentinel_witness :
    get_available_crew [crewCharlieOff] 3 4 = none :=
  get_available_crew_empty_sentinel [crewCharlieOff] 3 4 rfl

/-! ### Evaluating the distance at a concrete nonzero input -/

/-- If `n ≤ x < n + 1/2`, banker's rounding gives `n`. -/
theorem roundHalfEven_of_between {x : ℝ} {n : ℤ} (h1 : (n : ℝ) ≤ x)
    (h2 : x < (n : ℝ) + 1 / 2) :
    roundHalfEven x = n := by
  have hfl : ⌊x⌋ = n := by
    rw [Int.floor_eq_iff]
    refine ⟨h1, ?_⟩
    linarith
  have hfr : Int.fract x ≠ 1 / 2 := by
    rw [Int.fract, hfl]
    intro hEq
    have : x = (n : ℝ) + 1 / 2 := by linarith
    linarith
  rw [roundHalfEven_eq_round hfr, round_eq, Int.floor_eq_iff]
  constructor <;> linarith

/-- If `n - 1/2 < x ≤ n`, banker's rounding gives `n`. -/
theorem roundHalfEven_of_between' {x : ℝ} {n : ℤ} (h1 : (n : ℝ) - 1 / 2 < x)
    (h2 : x ≤ (n : ℝ)) :
    roundHalfEven x = n := by
  have hfr : Int.fract x ≠ 1 / 2 := by
    by_cases hx : x = (n : ℝ)
    · subst hx
      rw [Int.fract_intCast]
      norm_num
    · have hlt : x < (n : ℝ) := lt_of_le_of_ne h2 hx
      have hfl : ⌊x⌋ = n - 1 := by
        rw [Int.floor_eq_iff]
        push_cast
        constructor <;> linarith
      rw [Int.fract, hfl]
      push_cast
      intro hEq
      linarith
  rw [roundHalfEven_eq_round hfr, round_eq, Int.floor_eq_iff]
  constructor <;> linarith

/-- For a half-angle `u` in `[0, pi/2)` the haversine core
`2 * atan2 (sqrt (sin² u)) (sqrt (1 - sin² u))` is exactly `2 * u`. -/
theorem haversine_core_eval {u : ℝ} (h0 : 0 ≤ u) (hlt : u < Real.pi / 2) :
    2 * atan2 (Real.sqrt (Real.sin u ^ 2)) (Real.sqrt (1 - Real.sin u ^ 2)) = 2 * u := by
  have hpi := Real.pi_pos
  have hs : Real.sqrt (Real.sin u ^ 2) = Real.sin u :=
    Real.sqrt_sq (Real.sin_nonneg_of_nonneg_of_le_pi h0 (by linarith))
  have hc' : 1 - Real.sin u ^ 2 = Real.cos u ^ 2 := by
    have := Real.sin_sq_add_cos_sq u
    linarith
  have hcpos : 0 < Real.cos u := Real.cos_pos_of_mem_Ioo ⟨by linarith, hlt⟩
  rw [hs, hc', Real.sqrt_sq hcpos.le, atan2_sin_cos (by linarith) hlt]

/-- Concrete evaluation: an outage at latitude 0.21°, longitude 0 and a
crew at the origin are 23.35 km apart (haversine, rounded to 2 places). -/
theorem dist_021_eval : calculate_distance 0.21 0 0 0 = 23.35 := by
  have hpi := Real.pi_pos
  have h1 : radians 0 = 0 := by
    rw [radians]
    ring
  have h2 : radians 0.21 = 7 * Real.pi / 6000 := by
    rw [radians]
    ring
  simp only [calculate_distance, h1, h2]
  have ha : Real.sin ((0 - 7 * Real.pi / 6000) / 2) ^ 2 +
      Real.cos (7 * Real.pi / 6000) * Real.cos 0 * Real.sin ((0 - 0) / 2) ^ 2
      = Real.sin (7 * Real.pi / 12000) ^ 2 := by
    rw [show ((0 : ℝ) - 7 * Real.pi / 6000) / 2 = -(7 * Real.pi / 12000) by ring,
      Real.sin_neg, show ((0 : ℝ) - 0) / 2 = 0 by ring, Real.sin_zero]
    ring
  rw [ha]
  rw [haversine_core_eval (by positivity) (by linarith)]
  rw [show (6371 : ℝ) * (2 * (7 * Real.pi / 12000)) = 44597 * Real.pi / 6000 by ring]
  rw [round2, show 44597 * Real.pi / 6000 * 100 = 44597 * Real.pi / 60 by ring]
  rw [roundHalfEven_of_between (n := (2335 : ℤ))
    (by push_cast; linarith [Real.pi_gt_d6]) (by push_cast; linarith [Real.pi_lt_d6])]
  norm_num

/-! ### C5: the ETA is a truncation, not a rounding -/

/-- An available crew at the origin, as the single roster entry for an
outage at latitude 0.21°. -/
def crewHQ : CrewRecord := ⟨"CRW-100", "HQ", "Yes", 0, 0⟩

/-- Concrete evaluation: dispatching the outage at (0.21, 0) against the
singleton roster selects `crewHQ` at distance 23.35 km. -/
theorem gac_crewHQ_eval : get_available_crew [crewHQ] 0.21 0 = some (crewHQ, 23.35) := by
  have hc : candidatesWithDist [crewHQ] 0.21 0 = [(crewHQ, 23.35)] := by
    rw [candidatesWithDist]
    simp [isAvailable, crewHQ, dist_021_eval]
  rw [get_available_crew, hc]
  simp only [selectMin]

/-- C5 counterexample: the code computes the ETA as `int(distance * 2)`
(truncation), not `round(distance * 2)`.  At the assignment produced for
an outage at (0.21, 0) with a crew at the origin the distance is
23.35 km, the reported ETA is `int(46.7) = 46` minutes, while
`round(46.7) = 47`. -/
theorem eta_not_round_counterexample :
    get_available_crew [crewHQ] 0.21 0 = some (crewHQ, 23.35) ∧
    eta_minutes 23.35 = 46 ∧ roundHalfEven ((23.35 : ℝ) * 2) = 47 ∧
    eta_minutes 23.35 ≠ roundHalfEven ((23.35 : ℝ) * 2) := by
  have h1 : eta_minutes 23.35 = 46 := by
    rw [eta_minutes, pyInt, if_pos (by norm_num : (0 : ℝ) ≤ 23.35 * 2)]
    rw [show (23.35 : ℝ) * 2 = 46.7 by norm_num]
    rw [Int.floor_eq_iff]
    norm_num
  have h2 : roundHalfEven ((23.35 : ℝ) * 2) = 47 := by
    rw [show (23.35 : ℝ) * 2 = 46.7 by norm_num]
    exact roundHalfEven_of_between' (by norm_num) (by norm_num)
  refine ⟨gac_crewHQ_eval, h1, h2, ?_⟩
  rw [h1, h2]
  decide

/-- C5 amended: for every assignment with a selected crew, the distance
carried by the assignment is the haversine distance to that crew, it is
nonnegative, and the reported ETA is `int(distance * 2)` minutes, i.e.
`⌊distance * 2⌋` (truncation toward zero of a nonnegative value) — which
equals `round(distance * 2)` only when the fractional part of
`distance * 2` is below one half. -/
theorem eta_is_truncation (crew_df : List CrewRecord) (lat lon : ℝ)
    (c : CrewRecord) (d : ℝ) (h : get_available_crew crew_df lat lon = some (c, d)) :
    d = calculate_distance lat lon c.lat c.lon ∧ 0 ≤ d ∧ eta_minutes d = ⌊d * 2⌋ := by
  have hmem := gac_some_mem h
  rw [candidatesWithDist] at hmem
  obtain ⟨c', hcmem, hceq⟩ := List.mem_map.mp hmem
  have hceq' : (c', calculate_distance lat lon c'.lat c'.lon) = (c, d) := hceq
  have hcc : c' = c := congrArg Prod.fst hceq'
  have hdEq : calculate_distance lat lon c'.lat c'.lon = d := congrArg Prod.snd hceq'
  rw [hcc] at hdEq
  have hd0 : 0 ≤ d := by
    rw [← hdEq]
    exact calculate_distance_nonneg _ _ _ _
  refine ⟨hdEq.symm, hd0, ?_⟩
  rw [eta_minutes, pyInt, if_pos (mul_nonneg hd0 (by norm_num : (0 : ℝ) ≤ 2))]

theorem eta_is_truncation_witness :
    (23.35 : ℝ) = calculate_distance 0.21 0 crewHQ.lat crewHQ.lon ∧
    (0 : ℝ) ≤ 23.35 ∧ eta_minutes 23.35 = ⌊(23.35 : ℝ) * 2⌋ :=
  eta_is_truncation [crewHQ] 0.21 0 crewHQ 23.35 gac_crewHQ_eval

/-! ### C6: no coordinate validation exists in the code -/

/-- A crew whose latitude 200° is outside the valid range [-90, 90]. -/
def crewOutOfRange : CrewRecord := ⟨"CRW-200", "Delta", "Yes", 200, 0⟩

/-- C6 counterexample: an outage at the malformed latitude 200° matched
against a crew at the same malformed coordinate succeeds and produces an
ordinary assignment with distance 0 — the dispatcher performs no
coordinate validation and raises no `InvalidCoordinate` condition. -/
theorem no_invalid_coordinate_check_counterexample :
    get_available_crew [crewOutOfRange] 200 0 = some (crewOutOfRange, 0) := by
  have hc : candidatesWithDist [crewOutOfRange] 200 0 = [(crewOutOfRange, 0)] := by
    rw [candidatesWithDist]
    simp [isAvailable, crewOutOfRange, calculate_distance_self]
  rw [get_available_crew, hc]
  simp only [selectMin]

/-- C6 amended: the dispatcher accepts arbitrary real coordinates —
including out-of-range latitudes and longitudes — without any validation:
whenever the roster has an available crew, an ordinary assignment is
returned; no `InvalidCoordinate` failure path exists in the code. -/
theorem assignment_ignores_coordinate_range (crew_df : List CrewRecord) (lat lon : ℝ)
    (h : crew_df.filter isAvailable ≠ []) :
    ∃ r, get_available_crew crew_df lat lon = some r := by
  cases hc : candidatesWithDist crew_df lat lon with
  | nil =>
    exfalso
    apply h
    rw [candidatesWithDist, List.map_eq_nil_iff] at hc
    exact hc
  | cons p ps =>
    refine ⟨selectMin p ps, ?_⟩
    rw [get_available_crew, hc]

theorem assignment_ignores_coordinate_range_witness :
    ∃ r, get_available_crew [crewOutOfRange] 200 0 = some r :=
  assignment_ignores_coordinate_range [crewOutOfRange] 200 0
    (by simp [isAvailable, crewOutOfRange])

/-! ### C8: the anomaly detector (modelled from the spec) -/

/-- One timestamped sensor sample: identifier, timestamp and a numeric
feature vector (temperature, pressure, vibration, ...). -/
structure TelemetryReading where
  id : Nat
  timestamp : Nat
  features : List ℚ

/-- The detector failure conditions named by the design. -/
inductive DetectError where
  | InsufficientData
  | ModelFitFailure
  deriving DecidableEq

/-- Modelled from the spec: the Detector implementation is not part of
the source file — only the design document describes it.  `detect` takes
a telemetry batch and a contamination fraction; a batch with fewer
samples than the minimum needed to fit the model fails with
`InsufficientData`; otherwise the fitted model's verdict selects the
flagged readings in original batch order.  The isolation-forest fit is
abstracted as the verdict function `model`, and the minimum sample count
as `minSamples`. -/
def detect (minSamples : Nat)
    (model : List TelemetryReading → ℚ → TelemetryReading → Bool)
    (batch : List TelemetryReading) (contamination : ℚ) :
    Except DetectError (List TelemetryReading) :=
  if batch.length < minSamples then Except.error DetectError.InsufficientData
  else Except.ok (batch.filter (model batch contamination))

/-- C8: a batch with fewer samples than the minimum needed to fit the
outlier model fails with `InsufficientData` rather than silently
returning an empty or degenerate anomaly set. -/
theorem detect_insufficient_data (minSamples : Nat)
    (model : List TelemetryReading → ℚ → TelemetryReading → Bool)
    (batch : List TelemetryReading) (contamination : ℚ)
    (h : batch.length < minSamples) :
    detect minSamples model batch contamination
      = Except.error DetectError.InsufficientData := by
  rw [detect, if_pos h]

theorem detect_insufficient_data_witness :
    detect 5 (fun _ _ _ => true) [] (2 / 100)
      = Except.error DetectError.InsufficientData :=
  detect_insufficient_data 5 (fun _ _ _ => true) [] (2 / 100) (by decide)

/-! ### C9: partial-failure isolation in the batch loop -/

/-- The main event loop of `AI_agent.py` (lines 299–488): iterate over
the active outages with the whole per-outage body inside
`try: ... except: continue`, so a failing item is skipped (and reported)
and the loop moves on to the next outage.  The per-outage body (crew
assignment, AI analysis, PDF report, email) is abstracted as the
fallible `step`. -/
def runLoop {σ ε α : Type} (step : σ → Except ε α) : List σ → List α
  | [] => []
  | o :: rest =>
    match step o with
    | Except.error _ => runLoop step rest
    | Except.ok a => a :: runLoop step rest

/-- C9: a failure while processing one outage does not abort the batch:
when `step bad` fails, the loop over `pre ++ bad :: post` produces
exactly the results of processing `pre` followed by those of `post` —
every sibling outage is still processed. -/
theorem batch_failure_isolation {σ ε α : Type} (step : σ → Except ε α)
    (pre post : List σ) (bad : σ) (e : ε) (h : step bad = Except.error e) :
    runLoop step (pre ++ bad :: post) = runLoop step pre ++ runLoop step post := by
  induction pre with
  | nil =>
    simp only [List.nil_append, runLoop, h]
  | cons p pre ih =>
    cases hp : step p with
    | error e' =>
      simp only [List.cons_append, runLoop, hp, List.append_eq, ih]
    | ok a =>
      simp only [List.cons_append, runLoop, hp, List.append_eq, ih]

theorem batch_failure_isolation_witness :
    (fun n => if n = 0 then (Except.error "boom" : Except String Nat) else Except.ok n) 0
        = Except.error "boom" ∧
    runLoop (fun n => if n = 0 then (Except.error "boom" : Except String Nat) else Except.ok n)
        ([1] ++ 0 :: [2])
      = runLoop (fun n => if n = 0 then (Except.error "boom" : Except String Nat)
            else Except.ok n) [1]
        ++ runLoop (fun n => if n = 0 then (Except.error "boom" : Except String Nat)
            else Except.ok n) [2] :=
  ⟨rfl, batch_failure_isolation _ [1] [2] 0 "boom" rfl⟩

/-! ### C10: the caller's roster is never mutated -/

/-- A pandas-style frame of crew records: the roster rows plus the
optional `distance` column that `get_available_crew` writes into its
local copy. -/
structure CrewFrame where
  rows : List CrewRecord
  distCol : Option (List ℝ)

/-- Zipping a list with its own image under `f` pairs each element with
its image. -/
theorem zip_map_self {α β : Type} (f : α → β) (l : List α) :
    l.zip (l.map f) = l.map (fun a => (a, f a)) := by
  induction l with
  | nil => rfl
  | cons a l ih =>
    simp only [List.map_cons, List.zip_cons_cons, ih]

/-- Variant of `get_available_crew` with the caller's frame threaded
explicitly as state, mirroring the pandas operations of `AI_agent.py` lines 51–61:
boolean-mask selection yields a new frame, `.copy()` detaches it, and the
`distance` column assignment targets only that detached copy, so the
caller's frame is returned unchanged. -/
noncomputable def get_available_crew_df (df : CrewFrame) (lat lon : ℝ) :
    Option (CrewRecord × ℝ) × CrewFrame :=
  let view : CrewFrame := ⟨df.rows.filter isAvailable, none⟩
  let candidates : CrewFrame := ⟨view.rows, view.distCol⟩
  let dists := candidates.rows.map (fun r => calculate_distance lat lon r.lat r.lon)
  match candidates.rows.zip dists with
  | [] => (none, df)
  | p :: ps => (some (selectMin p ps), df)

/-- The state-threaded call agrees with the pure `get_available_crew` on
the frame's rows and hands the frame back untouched. -/
theorem gac_df_spec (df : CrewFrame) (lat lon : ℝ) :
    get_available_crew_df df lat lon = (get_available_crew df.rows lat lon, df) := by
  simp only [get_available_crew_df, zip_map_self]
  rw [← candidatesWithDist, get_available_crew]
  cases candidatesWithDist df.rows lat lon with
  | nil => rfl
  | cons p ps => rfl

/-- The dispatcher part of the main event loop (`AI_agent.py` lines
299–317): one `get_available_crew(crew_df, lat, lon)` call per active
outage, threading the same roster frame through every iteration. -/
noncomputable def dispatchLoop (df : CrewFrame) :
    List (ℝ × ℝ) → List (Option (CrewRecord × ℝ)) × CrewFrame
  | [] => ([], df)
  | o :: rest =>
    let r := get_available_crew_df df o.1 o.2
    let rs := dispatchLoop r.2 rest
    (r.1 :: rs.1, rs.2)

/-- C10: `get_available_crew` leaves the input roster unchanged — the
availability filtering and the added distance column live on a local
copy — so running the batch loop returns the frame exactly as it was,
and every per-outage call sees the full original pool: the results are
the pure selections against the original rows. -/
theorem dispatch_loop_leaves_roster_unchanged (df : CrewFrame) (outages : List (ℝ × ℝ)) :
    dispatchLoop df outages =
      (outages.map (fun o => get_available_crew df.rows o.1 o.2), df) := by
  induction outages with
  | nil => rfl
  | cons o rest ih =>
    simp only [dispatchLoop, List.map_cons, gac_df_spec, ih]
